import Mathlib

/-!
Verification development for the lakeFS S3 inventory manifest-file reader
(`block/s3/inventory_reader.go`).

The Go code is shallowly embedded: pure helpers become Lean functions, the
mutable `InventoryReader` (its `orcFilesByKey` map) and the local filesystem
become explicit state records threaded through each operation, and fallible
calls return `Except` / `Option`. External collaborators (the scritchley/orc
decoding library, the S3 client, the temp-file namespace) are modelled at
their interface boundary: an ORC file is its list of stripes, each stripe a
list of rows; the S3 service is a function from key to a download outcome.
-/

/-- One decoded ORC row, as consumed by `inventoryObjectFromOrc`
(`rowData[0]` bucket, `rowData[1]` key, `rowData[2]` size,
`rowData[3]` last-modified time, modelled by its Unix seconds). -/
structure RowData where
  bucket : String
  key : String
  size : Int
  lastModified : Int
deriving Repr, DecidableEq, Inhabited

/-- Modelled from the spec: the uniform output record
(`InventoryObject`, declared outside the embedded file). `Size` and
`LastModified` are `*int64` in Go (`swag.Int64`); the pointed-to values are
modelled directly since the reader always populates them. -/
structure InventoryObject where
  Bucket : String
  Key : String
  Size : Int
  LastModified : Int
deriving Repr, DecidableEq, Inhabited

/-- `inventoryObjectFromOrc` (inventory_reader.go:143-150):
builds an `InventoryObject` from one ORC row.
`time.Time.Unix()` is the identity here because `RowData.lastModified`
already carries Unix seconds. -/
def inventoryObjectFromOrc (rowData : RowData) : InventoryObject :=
  { Bucket := rowData.bucket
    Key := rowData.key
    Size := rowData.size
    LastModified := rowData.lastModified }

/-- Model of `*orc.Reader` (scritchley/orc): an opened local ORC file is its
stripe list. -/
structure OrcReader where
  stripes : List (List RowData)
deriving Repr, DecidableEq

/-- `orc.Reader.NumRows`: the row count from the file's metadata, which for a
well-formed ORC file equals the number of rows stored. -/
def OrcReader.NumRows (r : OrcReader) : Nat :=
  r.stripes.flatten.length

/-- Model of `*orc.Cursor`: `cur` is the not-yet-consumed tail of the current
stripe, `rest` the stripes not yet entered.  `Next()` succeeds iff `cur` is
nonempty (consuming one row); `Stripes()` succeeds iff `rest` is nonempty
(loading the next stripe and abandoning whatever is left of `cur`). -/
structure OrcCursor where
  cur : List RowData
  rest : List (List RowData)
deriving Repr, DecidableEq

/-- `reader.Select("bucket", "key", "size", "last_modified_date")`
(inventory_reader.go:134): a fresh cursor positioned before the first
stripe. Field selection is implicit: every `RowData` carries exactly the
four selected columns. -/
def OrcReader.Select (r : OrcReader) : OrcCursor :=
  ⟨[], r.stripes⟩

/-- Inner loop of `OrcManifestFileReader.Read` (inventory_reader.go:155-168)
while it stays inside one stripe: repeatedly `c.Next()` / `c.Row()`,
appending to `res`, until either `len(res) == num` (first component, paired
with `some leftover`, the rows still unread in this stripe) or the stripe is
exhausted (`none`, with the records accumulated so far). -/
def readFromStripe : List RowData → Nat → List InventoryObject →
    List InventoryObject × Option (List RowData)
  | [], _, res => (res, none)
  | r :: rs, num, res =>
    let res' := res ++ [inventoryObjectFromOrc r]
    if res'.length = num then (res', some rs) else readFromStripe rs num res'

/-- The full loop of `OrcManifestFileReader.Read` (inventory_reader.go:155-168).
When `Next()` fails the source calls `Stripes()`; if that fails, or the newly
loaded stripe immediately fails `Next()`, the source does `return nil`
WITHOUT executing line 169's `reflect...Set`, so the accumulated records are
discarded: that outcome is `none` here.  `some res'` is the outcome in which
line 169 runs and stores `res'` in the caller's buffer. The second component
is the cursor state the loop leaves behind. -/
def readLoop (cur : List RowData) (rest : List (List RowData)) (num : Nat)
    (res : List InventoryObject) : Option (List InventoryObject) × OrcCursor :=
  match readFromStripe cur num res with
  | (res', some leftover) => (some res', ⟨leftover, rest⟩)
  | (res', none) =>
    match rest with
    | [] => (none, ⟨[], []⟩)
    | s :: ss =>
      match s with
      | [] => (none, ⟨[], ss⟩)
      | _ :: _ => readLoop s ss num res'

/-- `OrcManifestFileReader.Read` (inventory_reader.go:152-171).
`dst` is the caller's buffer (`num := reflect.ValueOf(dst).Elem().Len()`).
The Go method returns `nil` on every path, so no error component is needed;
the returned list is the buffer's contents after the call: replaced by the
accumulated batch when line 169 ran, and left as it was (stale) when the
exhaustion paths returned early. -/
def OrcManifestFileReader.ReadInto (dst : List InventoryObject) (c : OrcCursor) :
    List InventoryObject × OrcCursor :=
  match readLoop c.cur c.rest dst.length [] with
  | (some res, c') => (res, c')
  | (none, c') => (dst, c')

/-- Inner loop of `OrcManifestFileReader.SkipRows` (inventory_reader.go:183-189):
`for r.c.Next() { r.c.Row(); skipped += 1; if skipped == i { return nil } }`.
`.inr leftover` means the count was reached (rows of this stripe not yet
consumed are `leftover`); `.inl skipped'` means the stripe was exhausted
first, with the updated count. -/
def skipInStripe : List RowData → Int → Int → Int ⊕ List RowData
  | [], skipped, _ => .inl skipped
  | _ :: rs, skipped, i =>
    let skipped' := skipped + 1
    if skipped' = i then .inr rs else skipInStripe rs skipped' i

/-- Outer loop of `OrcManifestFileReader.SkipRows` (inventory_reader.go:182-191):
`for r.c.Stripes() { ... }` and the trailing
`return errors.New("no more rows to skip")`.  The error case leaves the
cursor fully consumed (every `Stripes()` call dropped one stripe and every
inner loop ran to exhaustion). -/
def skipStripes : List (List RowData) → Int → Int → Option String × OrcCursor
  | [], _, _ => (some "no more rows to skip", ⟨[], []⟩)
  | s :: ss, skipped, i =>
    match skipInStripe s skipped i with
    | .inr leftover => (none, ⟨leftover, ss⟩)
    | .inl skipped' => skipStripes ss skipped' i

/-- `OrcManifestFileReader.SkipRows` (inventory_reader.go:177-192).
`i == 0` returns immediately.  Otherwise the first `Stripes()` call abandons
the remainder of the current stripe (`c.cur`) before counting begins; when
there is no next stripe at all, that first call fails and the cursor is
untouched. -/
def OrcManifestFileReader.SkipRows (c : OrcCursor) (i : Int) :
    Option String × OrcCursor :=
  if i = 0 then (none, c)
  else
    match c.rest with
    | [] => (some "no more rows to skip", c)
    | s :: ss => skipStripes (s :: ss) 0 i

/-- `OrcManifestFileReader` (inventory_reader.go:36-41).  The `mgr`
back-pointer is realized by passing the factory state explicitly to `Close`. -/
structure OrcManifestFileReader where
  reader : OrcReader
  c : OrcCursor
  key : String
deriving Repr, DecidableEq

/-- `OrcManifestFileReader.GetNumRows` (inventory_reader.go:173-175). -/
def OrcManifestFileReader.GetNumRows (r : OrcManifestFileReader) : Int :=
  (r.reader.NumRows : Int)

/-- Go map lookup (`m[key]` with `ok`), for the assoc-list model of maps. -/
def alookup {α : Type} : List (String × α) → String → Option α
  | [], _ => none
  | (k, v) :: rest, key => if k = key then some v else alookup rest key

/-- Go map store (`m[key] = v`): replace the entry if present, else add one. -/
def aset {α : Type} : List (String × α) → String → α → List (String × α)
  | [], key, v => [(key, v)]
  | (k, w) :: rest, key, v =>
    if k = key then (k, v) :: rest else (k, w) :: aset rest key v

/-- Go map delete (`delete(m, key)`). -/
def adelete {α : Type} (m : List (String × α)) (key : String) :
    List (String × α) :=
  m.filter (fun e => e.1 ≠ key)

/-- `orcFile` (inventory_reader.go:47-52): one cache entry of the
materialization cache.  Go zero values: `idx = 0`, `localFilename = ""`,
`ready = false`. -/
structure orcFile where
  key : String
  idx : Nat
  localFilename : String
  ready : Bool
deriving Repr, DecidableEq

/-- Modelled from the spec: `manifestFileSpec` (declared outside the embedded
file), one entry of `Manifest.Files`; only its `Key` is consumed here. -/
structure manifestFileSpec where
  Key : String
deriving Repr, DecidableEq

/-- Modelled from the spec: `Manifest` (declared outside the embedded file),
{format tag, inventory bucket, ordered file list}, exactly the three fields
the embedded code consumes (`o.manifest.Format`, `o.manifest.inventoryBucket`,
`o.manifest.Files`). -/
structure Manifest where
  Format : String
  inventoryBucket : String
  Files : List manifestFileSpec
deriving Repr, DecidableEq

/-- `InventoryReader` (inventory_reader.go:28-34).  `svc` is the S3 client at
its interface boundary: per key, either the downloaded object (already
decoded into ORC stripes, since the bytes are only ever given to `orc.Open`)
or a transport/cancellation error.  `ctx` and `logger` have no observable
effect and are omitted. -/
structure InventoryReader where
  manifest : Manifest
  svc : String → Except String (List (List RowData))
  orcFilesByKey : List (String × orcFile)

/-- The world outside the `InventoryReader` that the code observably touches:
the temp-file namespace (`files` maps a local path to that file's ORC
content; `tempCounter` makes `ioutil.TempFile` names fresh) and a log of
`s3manager` download calls, one entry per call, used to count downloads. -/
structure World where
  tempCounter : Nat
  files : List (String × List (List RowData))
  downloadLog : List String

/-- `InventoryReader.download` (inventory_reader.go:66-83): create a fresh
temp file, then download the object into it.  On a transport error the
temp file is left behind (as in the source) and the error is returned
unmodified. -/
def InventoryReader.download (o : InventoryReader) (w : World) (key : String) :
    Except String String × World :=
  let name := "/tmp/" ++ key ++ "-" ++ toString w.tempCounter
  let w₁ : World :=
    { w with tempCounter := w.tempCounter + 1, files := (name, []) :: w.files }
  match o.svc key with
  | .error e =>
    (.error e, { w₁ with downloadLog := w₁.downloadLog ++ [key] })
  | .ok content =>
    (.ok name, { w₁ with downloadLog := w₁.downloadLog ++ [key],
                         files := aset w₁.files name content })

/-- `orc.Open(localFilename)`: reads the local file and decodes it. -/
def orcOpen (w : World) (p : String) : Except String OrcReader :=
  match alookup w.files p with
  | some content => .ok ⟨content⟩
  | none => .error ("open " ++ p ++ ": no such file or directory")

/-- `InventoryReader.getOrcReader` (inventory_reader.go:109-136).  The Go map
holds `*orcFile` pointers mutated in place, so every exit path here writes
the entry's final field values back into the map: the entry is created (if
absent) and its `idx` set before the download, and `ready`/`localFilename`
are set only after a successful download. -/
def InventoryReader.getOrcReader (o : InventoryReader) (w : World) (key : String) :
    Except String OrcManifestFileReader × InventoryReader × World :=
  let file₀ := (alookup o.orcFilesByKey key).getD
    { key := key, idx := 0, localFilename := "", ready := false }
  let file₁ := { file₀ with
    idx := (List.findIdx? (fun f => f.Key = key) o.manifest.Files).getD file₀.idx }
  if file₁.ready then
    let o₁ := { o with orcFilesByKey := aset o.orcFilesByKey key file₁ }
    match orcOpen w file₁.localFilename with
    | .error e => (.error e, o₁, w)
    | .ok orcReader =>
      (.ok { reader := orcReader, c := orcReader.Select, key := key }, o₁, w)
  else
    match o.download w key with
    | (.error e, w') =>
      (.error e, { o with orcFilesByKey := aset o.orcFilesByKey key file₁ }, w')
    | (.ok name, w') =>
      let file₂ := { file₁ with ready := true, localFilename := name }
      let o₂ := { o with orcFilesByKey := aset o.orcFilesByKey key file₂ }
      match orcOpen w' name with
      | .error e => (.error e, o₂, w')
      | .ok orcReader =>
        (.ok { reader := orcReader, c := orcReader.Select, key := key }, o₂, w')

/-- `ParquetManifestFileReader` (inventory_reader.go:43-45): embeds the
parquet decoder; the model keeps the one observable bit of stream state. -/
structure ParquetManifestFileReader where
  stopped : Bool
deriving Repr, DecidableEq

/-- `ParquetReader.ReadStop`: stop the underlying column readers. -/
def ParquetManifestFileReader.ReadStop (p : ParquetManifestFileReader) :
    ParquetManifestFileReader :=
  { p with stopped := true }

/-- `InventoryReader.getParquetReader` (inventory_reader.go:96-107): opens a
streaming S3 handle and a parquet decoder over it; no cache entry, no local
file.  The two fallible open steps are collapsed into the remote open, since
no claim depends on parquet decoding itself. -/
def InventoryReader.getParquetReader (o : InventoryReader) (w : World)
    (key : String) :
    Except String ParquetManifestFileReader × InventoryReader × World :=
  match o.svc key with
  | .error e => (.error ("failed to create parquet file reader: " ++ e), o, w)
  | .ok _ => (.ok { stopped := false }, o, w)

/-- Modelled from the spec: `ErrUnsupportedInventoryFormat`
(`UnsupportedFormatError`, declared outside the embedded file). -/
def ErrUnsupportedInventoryFormat : String := "unsupported inventory format"

/-- The `ManifestFileReader` interface value returned by the factory. -/
inductive ManifestFileReader where
  | orc (r : OrcManifestFileReader)
  | parquet (r : ParquetManifestFileReader)
deriving Repr, DecidableEq

/-- `InventoryReader.GetManifestFileReader` (inventory_reader.go:85-94):
switch on `o.manifest.Format`. -/
def InventoryReader.GetManifestFileReader (o : InventoryReader) (w : World)
    (key : String) :
    Except String ManifestFileReader × InventoryReader × World :=
  if o.manifest.Format = "ORC" then
    match o.getOrcReader w key with
    | (.error e, o', w') => (.error e, o', w')
    | (.ok r, o', w') => (.ok (.orc r), o', w')
  else if o.manifest.Format = "Parquet" then
    match o.getParquetReader w key with
    | (.error e, o', w') => (.error e, o', w')
    | (.ok r, o', w') => (.ok (.parquet r), o', w')
  else
    (.error ErrUnsupportedInventoryFormat, o, w)

/-- `InventoryReader.clean` (inventory_reader.go:58-64):
`localFilename := o.orcFilesByKey[key].localFilename` dereferences the map
entry; when the key is absent the lookup yields a nil `*orcFile` and the
field access panics — that outcome is `none`.  Otherwise the entry is
deleted and the local file removed (the `os.Remove` error is discarded). -/
def InventoryReader.clean (o : InventoryReader) (w : World) (key : String) :
    Option (InventoryReader × World) :=
  match alookup o.orcFilesByKey key with
  | none => none
  | some f =>
    some ({ o with orcFilesByKey := adelete o.orcFilesByKey key },
          { w with files := w.files.filter (fun e => e.1 ≠ f.localFilename) })

/-- `OrcManifestFileReader.Close` (inventory_reader.go:194-199).  `cErr` and
`rErr` are the results of `r.c.Close()` and `r.reader.Close()`; the source
discards both (`_ =`), so they are parameters here and deliberately unused.
Outer `none` is the panic propagated out of `clean`; otherwise the returned
error is `nil` (`none`). -/
def OrcManifestFileReader.Close (r : OrcManifestFileReader)
    (cErr rErr : Option String) (o : InventoryReader) (w : World) :
    Option (Option String × InventoryReader × World) :=
  match o.clean w r.key with
  | none => none
  | some (o', w') => some (none, o', w')

/-- `ParquetManifestFileReader.Close` (inventory_reader.go:138-141):

    func (p *ParquetManifestFileReader) Close() error {
        p.ReadStop()
        return p.Close()
    }

The receiver's own `Close` shadows the embedded `ParquetReader`'s methods, so
`p.Close()` resolves to this very function and the call recurses without
bound.  Modelled with explicit fuel: `some` would be a returned error value,
`none` means the budget ran out before the call returned. -/
def ParquetManifestFileReader.Close (p : ParquetManifestFileReader) :
    Nat → Option (Option String)
  | 0 => none
  | fuel + 1 => ParquetManifestFileReader.Close p.ReadStop fuel

/-- `n` back-to-back `getOrcReader` requests for the same key (readers are
requested sequentially and none is closed in between). -/
def requestTimes : Nat → InventoryReader → World → String →
    InventoryReader × World
  | 0, o, w, _ => (o, w)
  | n + 1, o, w, key =>
    match o.getOrcReader w key with
    | (_, o', w') => requestTimes n o' w' key

/-- How many entries of the download log are for `key`. -/
def countKey (l : List String) (key : String) : Nat :=
  (l.filter (fun k => k = key)).length

/-- How many cache entries carry `key`. -/
def countEntries {α : Type} (m : List (String × α)) (key : String) : Nat :=
  (m.filter (fun e => e.1 = key)).length

/-! ### Association-list facts used by the cache claims -/

theorem alookup_aset_self {α : Type} (m : List (String × α)) (k : String) (v : α) :
    alookup (aset m k v) k = some v := by
  induction m with
  | nil => simp [aset, alookup]
  | cons e rest ih =>
    obtain ⟨k', v'⟩ := e
    by_cases h : k' = k <;> simp [aset, alookup, h, ih]

theorem alookup_filter_ne {α : Type} (m : List (String × α)) (k : String) :
    alookup (m.filter (fun e => e.1 ≠ k)) k = none := by
  induction m with
  | nil => simp [alookup]
  | cons e rest ih =>
    obtain ⟨k', v'⟩ := e
    by_cases h : k' = k <;>
      simp [alookup, List.filter_cons, h, ne_eq, decide_not, ih] <;>
      simpa [ne_eq, decide_not] using ih

theorem countEntries_eq_zero {α : Type} (m : List (String × α)) (k : String)
    (h : alookup m k = none) : countEntries m k = 0 := by
  induction m with
  | nil => simp [countEntries]
  | cons e rest ih =>
    obtain ⟨k', v'⟩ := e
    by_cases hk : k' = k
    · simp [alookup, hk] at h
    · simp only [alookup, if_neg hk] at h
      simp [countEntries, hk, List.filter] at ih ⊢
      exact ih h

theorem countEntries_aset_absent {α : Type} (m : List (String × α)) (k : String)
    (v : α) (h : alookup m k = none) : countEntries (aset m k v) k = 1 := by
  induction m with
  | nil => simp [aset, countEntries]
  | cons e rest ih =>
    obtain ⟨k', v'⟩ := e
    by_cases hk : k' = k
    · simp [alookup, hk] at h
    · simp only [alookup, if_neg hk] at h
      simp [aset, countEntries, hk, List.filter] at ih ⊢
      exact ih h

theorem countEntries_aset_present {α : Type} (m : List (String × α)) (k : String)
    (v f : α) (h : alookup m k = some f) :
    countEntries (aset m k v) k = countEntries m k := by
  induction m with
  | nil => simp [alookup] at h
  | cons e rest ih =>
    obtain ⟨k', v'⟩ := e
    by_cases hk : k' = k
    · simp [aset, countEntries, hk, List.filter]
    · simp only [alookup, if_neg hk] at h
      simp [aset, countEntries, hk, List.filter] at ih ⊢
      exact ih h

theorem countKey_append_self (l : List String) (k : String) :
    countKey (l ++ [k]) k = countKey l k + 1 := by
  simp [countKey, List.filter_append]

/-! ### Concrete five-record, two-stripe fixture (spec §8 scenario) -/

/-- Record 1 of the scenario file. -/
def row1 : RowData := ⟨"inv-bucket", "obj1", 1, 101⟩

/-- Record 2 of the scenario file. -/
def row2 : RowData := ⟨"inv-bucket", "obj2", 2, 102⟩

/-- Record 3 of the scenario file. -/
def row3 : RowData := ⟨"inv-bucket", "obj3", 3, 103⟩

/-- Record 4 of the scenario file. -/
def row4 : RowData := ⟨"inv-bucket", "obj4", 4, 104⟩

/-- Record 5 of the scenario file. -/
def row5 : RowData := ⟨"inv-bucket", "obj5", 5, 105⟩

/-- The scenario file: 5 records spanning 2 stripes (3 + 2). -/
def scenarioStripes : List (List RowData) := [[row1, row2, row3], [row4, row5]]

/-- A caller's batch buffer of capacity 4 (zero-valued slice of length 4). -/
def scenarioBuf : List InventoryObject := List.replicate 4 default

/-- The batch the first `Read` call stores: records 1-4. -/
def scenarioBatch1 : List InventoryObject :=
  [row1, row2, row3, row4].map inventoryObjectFromOrc

/-- The reader handle opened on the scenario file. -/
def scenarioReader : OrcManifestFileReader :=
  { reader := ⟨scenarioStripes⟩, c := OrcReader.Select ⟨scenarioStripes⟩,
    key := "scenario" }

/-- The deliveries a caller observes over repeated `Read` calls with batch
capacity `num`: one list entry per call in which line 169's
`reflect...Set` ran; the call that takes an early exhaustion return stores
nothing in the buffer and ends the sequence. -/
def readDeliveries : Nat → OrcCursor → Nat → List (List InventoryObject)
  | 0, _, _ => []
  | fuel + 1, c, num =>
    match readLoop c.cur c.rest num [] with
    | (none, _) => []
    | (some res, c') => res :: readDeliveries fuel c' num

/-- C1: FALSIFIED AT THE CLAIMED SCENARIO.  On the 5-record file in stripes
of 3 + 2 with batch capacity 4, the first `Read` does store 4 records, but
the second call hits the exhaustion path after accumulating record 5 and
returns before `reflect...Set` runs: the caller's buffer keeps the stale
first batch (4 records) instead of receiving the 1 accumulated record, and
record 5 is consumed from the cursor and lost. -/
theorem orcRead_exhaustion_discards_accumulated :
    OrcManifestFileReader.ReadInto scenarioBuf ⟨[], scenarioStripes⟩
      = (scenarioBatch1, ⟨[row5], []⟩) ∧
    OrcManifestFileReader.ReadInto scenarioBatch1 ⟨[row5], []⟩
      = (scenarioBatch1, ⟨[], []⟩) ∧
    readLoop [row5] [] 4 [] = (none, ⟨[], []⟩) ∧
    (OrcManifestFileReader.ReadInto scenarioBatch1 ⟨[row5], []⟩).1
      ≠ [inventoryObjectFromOrc row5] := by
  refine ⟨by decide, by decide, by decide, by decide⟩

/-- C2: FALSIFIED AT A CONCRETE FILE.  Reading the 5-record scenario file to
exhaustion with batch capacity 4 delivers only records 1-4 into the caller's
buffer — 4 records in total — while `GetNumRows` reports 5: the final
partial batch is discarded by the early exhaustion return, so the combined
yield is not R. -/
theorem orcRead_total_undercounts_numRows :
    (readDeliveries 3 ⟨[], scenarioStripes⟩ 4).flatten = scenarioBatch1 ∧
    (readDeliveries 3 ⟨[], scenarioStripes⟩ 4).flatten.length = 4 ∧
    OrcManifestFileReader.GetNumRows scenarioReader = 5 := by
  refine ⟨by decide, by decide, by decide⟩

/-- C3: FALSIFIED.  `ParquetManifestFileReader.Close` ends with
`return p.Close()`, and the receiver's own `Close` shadows the embedded
decoder's method, so the call recurses into itself: for every recursion
budget the call has not returned — `Close` never terminates, against the
claim that it is a terminating operation returning an error value. -/
theorem parquetClose_never_returns (p : ParquetManifestFileReader) (fuel : Nat) :
    ParquetManifestFileReader.Close p fuel = none := by
  induction fuel generalizing p with
  | zero => rfl
  | succ n ih => exact ih p.ReadStop

/-- C9: `SkipRows(0)` returns no error and leaves the cursor exactly where
it was, so any subsequent `Read` (with any buffer) behaves identically to
not having called it at all. -/
theorem skipRows_zero_noop (c : OrcCursor) :
    OrcManifestFileReader.SkipRows c 0 = (none, c) ∧
    ∀ dst : List InventoryObject,
      OrcManifestFileReader.ReadInto dst (OrcManifestFileReader.SkipRows c 0).2
        = OrcManifestFileReader.ReadInto dst c := by
  refine ⟨by simp [OrcManifestFileReader.SkipRows], fun dst => by
    simp [OrcManifestFileReader.SkipRows]⟩

/-- C7: with an unrecognized `Manifest.Format` the factory returns
`ErrUnsupportedInventoryFormat` and both the factory state and the world
(filesystem, download log) are returned untouched: no download, no cache
entry, no temporary file. -/
theorem getManifestFileReader_unsupported_format (o : InventoryReader)
    (w : World) (key : String)
    (h1 : o.manifest.Format ≠ "ORC") (h2 : o.manifest.Format ≠ "Parquet") :
    o.GetManifestFileReader w key = (.error ErrUnsupportedInventoryFormat, o, w) := by
  simp [InventoryReader.GetManifestFileReader, h1, h2]

/-- Witness for C7 at a concrete unrecognized format ("AVRO"). -/
theorem getManifestFileReader_unsupported_format_witness :
    InventoryReader.GetManifestFileReader
        ⟨⟨"AVRO", "bkt", [⟨"k"⟩]⟩, fun _ => .error "unused", []⟩ ⟨0, [], []⟩ "k"
      = (.error ErrUnsupportedInventoryFormat,
         ⟨⟨"AVRO", "bkt", [⟨"k"⟩]⟩, fun _ => .error "unused", []⟩, ⟨0, [], []⟩) :=
  getManifestFileReader_unsupported_format
    ⟨⟨"AVRO", "bkt", [⟨"k"⟩]⟩, fun _ => .error "unused", []⟩ ⟨0, [], []⟩ "k"
    (by decide) (by decide)

/-- A factory state holding one ready cache entry for the scenario key. -/
def closeFixO : InventoryReader :=
  ⟨⟨"ORC", "bkt", [⟨"scenario"⟩]⟩, fun _ => .ok scenarioStripes,
   [("scenario", ⟨"scenario", 0, "/tmp/scenario-0", true⟩)]⟩

/-- A world in which the scenario key's materialized copy exists on disk. -/
def closeFixW : World :=
  ⟨1, [("/tmp/scenario-0", scenarioStripes)], ["scenario"]⟩

/-- C6: closing a materialization-format reader whose key has a cache entry
always succeeds, removes that entry from the factory cache, and deletes the
entry's backing local file from the filesystem — for every outcome `cErr`,
`rErr` of the cursor-close and decoder-close steps, both of which the source
discards, so the cleanup runs even when those steps fail. -/
theorem orcClose_removes_entry_and_file (r : OrcManifestFileReader)
    (o : InventoryReader) (w : World) (f : orcFile) (cErr rErr : Option String)
    (hentry : alookup o.orcFilesByKey r.key = some f) :
    ∃ o' w', OrcManifestFileReader.Close r cErr rErr o w = some (none, o', w') ∧
      alookup o'.orcFilesByKey r.key = none ∧
      alookup w'.files f.localFilename = none ∧
      w'.files = w.files.filter (fun e => e.1 ≠ f.localFilename) := by
  refine ⟨{ o with orcFilesByKey := adelete o.orcFilesByKey r.key },
          { w with files := w.files.filter (fun e => e.1 ≠ f.localFilename) },
          ?_, ?_, ?_, rfl⟩
  · simp [OrcManifestFileReader.Close, InventoryReader.clean, hentry]
  · simpa [adelete] using alookup_filter_ne o.orcFilesByKey r.key
  · exact alookup_filter_ne w.files f.localFilename

/-- Witness for C6 at a concrete ready entry and on-disk file. -/
theorem orcClose_removes_entry_and_file_witness :
    ∃ o' w', OrcManifestFileReader.Close scenarioReader none none closeFixO closeFixW
        = some (none, o', w') ∧
      alookup o'.orcFilesByKey scenarioReader.key = none ∧
      alookup w'.files "/tmp/scenario-0" = none ∧
      w'.files = closeFixW.files.filter (fun e => e.1 ≠ "/tmp/scenario-0") :=
  orcClose_removes_entry_and_file scenarioReader closeFixO closeFixW
    ⟨"scenario", 0, "/tmp/scenario-0", true⟩ none none (by decide)

/-- C10: after a first successful `Close` has deleted the key's cache entry,
a second `Close` reaches `clean`, whose
`o.orcFilesByKey[key].localFilename` dereferences the now-missing (nil)
entry: the second call panics (modelled `none`) instead of returning an
error value. -/
theorem orcClose_double_close_panics (r : OrcManifestFileReader)
    (o : InventoryReader) (w : World) (f : orcFile)
    (cErr rErr cErr' rErr' : Option String)
    (hentry : alookup o.orcFilesByKey r.key = some f) :
    ∃ o' w', OrcManifestFileReader.Close r cErr rErr o w = some (none, o', w') ∧
      OrcManifestFileReader.Close r cErr' rErr' o' w' = none := by
  refine ⟨{ o with orcFilesByKey := adelete o.orcFilesByKey r.key },
          { w with files := w.files.filter (fun e => e.1 ≠ f.localFilename) },
          ?_, ?_⟩
  · simp [OrcManifestFileReader.Close, InventoryReader.clean, hentry]
  · have hmiss : alookup (adelete o.orcFilesByKey r.key) r.key = none := by
      simpa [adelete] using alookup_filter_ne o.orcFilesByKey r.key
    simp [OrcManifestFileReader.Close, InventoryReader.clean, hmiss]

/-- Witness for C10 at a concrete state: the same close succeeds once and
panics the second time. -/
theorem orcClose_double_close_panics_witness :
    ∃ o' w', OrcManifestFileReader.Close scenarioReader none none closeFixO closeFixW
        = some (none, o', w') ∧
      OrcManifestFileReader.Close scenarioReader none none o' w' = none :=
  orcClose_double_close_panics scenarioReader closeFixO closeFixW
    ⟨"scenario", 0, "/tmp/scenario-0", true⟩ none none none none (by decide)

/-- C8: when the download fails (transport error or context cancellation),
`getOrcReader` propagates the underlying error value unchanged, and the
cache entry for the key — created before the download if absent — still has
`ready = false` and an empty local path: no `Ready=true` entry is left
behind. -/
theorem getOrcReader_download_failure_state (o : InventoryReader) (w : World)
    (key e : String) (hsvc : o.svc key = .error e)
    (hentry : alookup o.orcFilesByKey key = none ∨
      ∃ f, alookup o.orcFilesByKey key = some f ∧ f.ready = false ∧
        f.localFilename = "") :
    (o.getOrcReader w key).1 = .error e ∧
    ∃ f, alookup (o.getOrcReader w key).2.1.orcFilesByKey key = some f ∧
      f.ready = false ∧ f.localFilename = "" := by
  rcases hentry with habs | ⟨f, hf, hready, hlf⟩
  · refine ⟨?_, ⟨⟨key, (List.findIdx? (fun x => x.Key = key) o.manifest.Files).getD 0, "", false⟩, ?_, rfl, rfl⟩⟩
    · simp [InventoryReader.getOrcReader, InventoryReader.download, habs, hsvc]
    · simp [InventoryReader.getOrcReader, InventoryReader.download, habs, hsvc,
        alookup_aset_self]
  · refine ⟨?_, ⟨{ f with idx := (List.findIdx? (fun x => x.Key = key) o.manifest.Files).getD f.idx }, ?_, by simp [hready], by simp [hlf]⟩⟩
    · simp [InventoryReader.getOrcReader, InventoryReader.download, hf, hsvc, hready]
    · simp [InventoryReader.getOrcReader, InventoryReader.download, hf, hsvc, hready,
        alookup_aset_self]

/-- A factory whose S3 client fails every download with a cancellation
error. -/
def failFixO : InventoryReader :=
  ⟨⟨"ORC", "bkt", [⟨"k"⟩]⟩, fun _ => .error "context canceled", []⟩

/-- Witness for C8 at a concrete failing download. -/
theorem getOrcReader_download_failure_state_witness :
    (failFixO.getOrcReader ⟨0, [], []⟩ "k").1 = .error "context canceled" ∧
    ∃ f, alookup (failFixO.getOrcReader ⟨0, [], []⟩ "k").2.1.orcFilesByKey "k"
        = some f ∧ f.ready = false ∧ f.localFilename = "" :=
  getOrcReader_download_failure_state failFixO ⟨0, [], []⟩ "k" "context canceled"
    rfl (Or.inl (by decide))

/-- When the key's cache entry is already `ready`, `getOrcReader` touches
neither the world (no download, no temp file) nor anything in the factory
but the entry's `idx` field: it re-opens the recorded local path directly. -/
theorem getOrcReader_ready_step (o : InventoryReader) (w : World) (key : String)
    (f : orcFile) (hf : alookup o.orcFilesByKey key = some f)
    (hready : f.ready = true) :
    (o.getOrcReader w key).2.2 = w ∧
    (o.getOrcReader w key).2.1.manifest = o.manifest ∧
    (o.getOrcReader w key).2.1.svc = o.svc ∧
    (o.getOrcReader w key).2.1.orcFilesByKey
      = aset o.orcFilesByKey key
          { f with idx := (List.findIdx? (fun x => x.Key = key) o.manifest.Files).getD f.idx } := by
  rcases horc : orcOpen w f.localFilename with e | rd <;>
    simp [InventoryReader.getOrcReader, hf, hready, horc]

/-- First request for an absent key with a working download: the factory
inserts a `ready` entry recording the fresh temp path, and the download log
grows by exactly this one call. -/
theorem getOrcReader_fresh_step (o : InventoryReader) (w : World) (key : String)
    (content : List (List RowData))
    (hsvc : o.svc key = .ok content)
    (habs : alookup o.orcFilesByKey key = none) :
    ∃ f, (o.getOrcReader w key).2.1.orcFilesByKey = aset o.orcFilesByKey key f ∧
      f.ready = true ∧
      f.localFilename = "/tmp/" ++ key ++ "-" ++ toString w.tempCounter ∧
      (o.getOrcReader w key).2.2.downloadLog = w.downloadLog ++ [key] := by
  refine ⟨⟨key, (List.findIdx? (fun x => x.Key = key) o.manifest.Files).getD 0, "/tmp/" ++ key ++ "-" ++ toString w.tempCounter, true⟩, ?_, rfl, rfl, ?_⟩ <;>
    simp [InventoryReader.getOrcReader, InventoryReader.download, orcOpen, aset,
      alookup, habs, hsvc]

/-- Any number of further requests for a key whose entry is `ready` change
no world state at all (in particular: no download) and keep one entry with
the same local path. -/
theorem requestTimes_ready (n : Nat) (o : InventoryReader) (w : World)
    (key : String) (f : orcFile)
    (hf : alookup o.orcFilesByKey key = some f) (hready : f.ready = true) :
    ∃ f', alookup (requestTimes n o w key).1.orcFilesByKey key = some f' ∧
      f'.ready = true ∧ f'.localFilename = f.localFilename ∧
      (requestTimes n o w key).2 = w ∧
      countEntries (requestTimes n o w key).1.orcFilesByKey key
        = countEntries o.orcFilesByKey key := by
  induction n generalizing o w f with
  | zero => exact ⟨f, hf, hready, rfl, rfl, rfl⟩
  | succ n ih =>
    obtain ⟨hw, _, _, hmap⟩ := getOrcReader_ready_step o w key f hf hready
    have hf₁ : alookup (o.getOrcReader w key).2.1.orcFilesByKey key
        = some { f with idx := (List.findIdx? (fun x => x.Key = key) o.manifest.Files).getD f.idx } := by
      rw [hmap]; exact alookup_aset_self _ _ _
    have hcnt : countEntries (o.getOrcReader w key).2.1.orcFilesByKey key
        = countEntries o.orcFilesByKey key := by
      rw [hmap]; exact countEntries_aset_present _ _ _ f hf
    have hrt : requestTimes (n + 1) o w key
        = requestTimes n (o.getOrcReader w key).2.1 (o.getOrcReader w key).2.2 key := rfl
    obtain ⟨f', h1, h2, h3, h4, h5⟩ :=
      ih (o.getOrcReader w key).2.1 (o.getOrcReader w key).2.2 _ hf₁ hready
    exact ⟨f', by rw [hrt]; exact h1, h2, by simpa using h3,
      by rw [hrt, h4]; exact hw, by rw [hrt]; exact h5.trans hcnt⟩

/-- C4: starting from a state with no entry and no logged download for the
key, any number `n + 1` of sequential reader requests for that key performs
exactly one download, leaves exactly one cache entry for the key, and every
request after the first reuses the local path recorded by the first: the
entry after all requests is `ready` with the same `localFilename` as after
the first request. -/
theorem getOrcReader_downloads_once (o : InventoryReader) (w : World)
    (key : String) (content : List (List RowData)) (n : Nat)
    (hsvc : o.svc key = .ok content)
    (habs : alookup o.orcFilesByKey key = none)
    (hlog : countKey w.downloadLog key = 0) :
    countKey (requestTimes (n + 1) o w key).2.downloadLog key = 1 ∧
    countEntries (requestTimes (n + 1) o w key).1.orcFilesByKey key = 1 ∧
    ∃ f f₁, alookup (requestTimes (n + 1) o w key).1.orcFilesByKey key = some f ∧
      alookup (requestTimes 1 o w key).1.orcFilesByKey key = some f₁ ∧
      f.ready = true ∧ f₁.ready = true ∧ f.localFilename = f₁.localFilename := by
  obtain ⟨g, hmap, hgr, hglf, hlog1⟩ := getOrcReader_fresh_step o w key content hsvc habs
  have hg : alookup (o.getOrcReader w key).2.1.orcFilesByKey key = some g := by
    rw [hmap]; exact alookup_aset_self _ _ _
  have hcnt1 : countEntries (o.getOrcReader w key).2.1.orcFilesByKey key = 1 := by
    rw [hmap]; exact countEntries_aset_absent _ _ _ habs
  have hrt : requestTimes (n + 1) o w key
      = requestTimes n (o.getOrcReader w key).2.1 (o.getOrcReader w key).2.2 key := rfl
  have hrt1 : requestTimes 1 o w key
      = ((o.getOrcReader w key).2.1, (o.getOrcReader w key).2.2) := rfl
  obtain ⟨f', h1, h2, h3, h4, h5⟩ :=
    requestTimes_ready n (o.getOrcReader w key).2.1 (o.getOrcReader w key).2.2 key g hg hgr
  refine ⟨?_, ?_, f', g, ?_, ?_, h2, hgr, h3⟩
  · rw [hrt, h4, hlog1, countKey_append_self, hlog]
  · rw [hrt]; exact h5.trans hcnt1
  · rw [hrt]; exact h1
  · rw [hrt1]; exact hg

/-- A factory over a one-file ORC manifest whose S3 client serves the
scenario file for key "k". -/
def dlFixO : InventoryReader :=
  ⟨⟨"ORC", "bkt", [⟨"k"⟩]⟩,
   fun k => if k = "k" then .ok scenarioStripes else .error "no such key", []⟩

/-- Witness for C4: two sequential requests for "k" from an empty cache
download once and share the local path. -/
theorem getOrcReader_downloads_once_witness :
    countKey (requestTimes 2 dlFixO ⟨0, [], []⟩ "k").2.downloadLog "k" = 1 ∧
    countEntries (requestTimes 2 dlFixO ⟨0, [], []⟩ "k").1.orcFilesByKey "k" = 1 ∧
    ∃ f f₁, alookup (requestTimes 2 dlFixO ⟨0, [], []⟩ "k").1.orcFilesByKey "k"
        = some f ∧
      alookup (requestTimes 1 dlFixO ⟨0, [], []⟩ "k").1.orcFilesByKey "k" = some f₁ ∧
      f.ready = true ∧ f₁.ready = true ∧ f.localFilename = f₁.localFilename :=
  getOrcReader_downloads_once dlFixO ⟨0, [], []⟩ "k" scenarioStripes 1 rfl rfl rfl

/-- If at least the missing `k = num - res.length` records are available in
the current stripe, the inner read loop fills the batch exactly and leaves
the rest of the stripe unread. -/
theorem readFromStripe_reaches (rows : List RowData) :
    ∀ (res : List InventoryObject) (num k : Nat), 1 ≤ k → num = res.length + k →
    k ≤ rows.length →
    readFromStripe rows num res
      = (res ++ (rows.take k).map inventoryObjectFromOrc, some (rows.drop k)) := by
  induction rows with
  | nil =>
    intro res num k hk _ hle
    exact absurd hle (by simp; omega)
  | cons r rs ih =>
    intro res num k hk hnum hle
    obtain ⟨k', rfl⟩ : ∃ k', k = k' + 1 := ⟨k - 1, by omega⟩
    simp only [readFromStripe]
    by_cases h0 : k' = 0
    · subst h0
      rw [if_pos (by simp; omega)]
      simp
    · rw [if_neg (by simp; omega)]
      rw [ih (res ++ [inventoryObjectFromOrc r]) num k' (by omega)
        (by simp; omega) (by simp at hle ⊢; omega)]
      simp

/-- If fewer records remain in the stripe than the batch still needs, the
inner read loop consumes the whole stripe and reports exhaustion. -/
theorem readFromStripe_exhausts (rows : List RowData) :
    ∀ (res : List InventoryObject) (num : Nat), res.length + rows.length < num →
    readFromStripe rows num res = (res ++ rows.map inventoryObjectFromOrc, none) := by
  induction rows with
  | nil => intro res num _; simp [readFromStripe]
  | cons r rs ih =>
    intro res num hgt
    simp only [readFromStripe]
    rw [if_neg (by simp at hgt ⊢; omega)]
    rw [ih (res ++ [inventoryObjectFromOrc r]) num (by simp at hgt ⊢; omega)]
    simp

/-- When the records still needed (`k = num - res.length`, at least one) do
not exceed what remains in the cursor and every upcoming stripe is
nonempty, the read loop stores the filled batch: the `reflect...Set`
branch runs with exactly the next `k` records appended in order. -/
theorem readLoop_delivers (rest : List (List RowData)) :
    ∀ (cur : List RowData) (res : List InventoryObject) (num k : Nat),
    (∀ s ∈ rest, s ≠ []) → 1 ≤ k → num = res.length + k →
    k ≤ (cur ++ rest.flatten).length →
    ∃ c', readLoop cur rest num res
      = (some (res ++ ((cur ++ rest.flatten).take k).map inventoryObjectFromOrc),
         c') := by
  induction rest with
  | nil =>
    intro cur res num k _ hk hnum hle
    simp only [List.flatten_nil, List.append_nil] at hle ⊢
    refine ⟨⟨cur.drop k, []⟩, ?_⟩
    simp only [readLoop]
    rw [readFromStripe_reaches cur res num k hk hnum hle]
  | cons s ss ih =>
    intro cur res num k hne hk hnum hle
    by_cases hc : k ≤ cur.length
    · refine ⟨⟨cur.drop k, s :: ss⟩, ?_⟩
      rw [List.take_append_of_le_length hc]
      rw [readLoop.eq_def]
      rw [readFromStripe_reaches cur res num k hk hnum hc]
    · push_neg at hc
      obtain ⟨k₂, rfl⟩ : ∃ k₂, k = cur.length + k₂ := ⟨k - cur.length, by omega⟩
      have hk₂ : 1 ≤ k₂ := by omega
      have hs : s ≠ [] := hne s (by simp)
      obtain ⟨r, s', rfl⟩ : ∃ r s', s = r :: s' := by
        cases s with
        | nil => exact absurd rfl hs
        | cons a b => exact ⟨a, b, rfl⟩
      have hle' : k₂ ≤ ((r :: s') ++ ss.flatten).length := by
        simp at hle ⊢; omega
      obtain ⟨c', hc'⟩ := ih (r :: s') (res ++ cur.map inventoryObjectFromOrc) num k₂
        (fun t ht => hne t (by simp [ht])) hk₂ (by simp; omega) hle'
      refine ⟨c', ?_⟩
      rw [readLoop.eq_def]
      rw [readFromStripe_exhausts cur res num (by omega)]
      show readLoop (r :: s') ss num (res ++ cur.map inventoryObjectFromOrc)
        = (some (res ++ ((cur ++ ((r :: s') :: ss).flatten).take
            (cur.length + k₂)).map inventoryObjectFromOrc), c')
      rw [hc']
      rw [show cur ++ ((r :: s') :: ss).flatten = cur ++ ((r :: s') ++ ss.flatten)
        from by simp]
      rw [List.take_append]
      simp [List.append_assoc]

/-- If at least `k` (the records still to discard, at least one) remain in
the stripe, the skip inner loop stops exactly after the `k`-th one. -/
theorem skipInStripe_reaches (rows : List RowData) :
    ∀ (skipped : Int) (k : Nat), 1 ≤ k → k ≤ rows.length →
    skipInStripe rows skipped (skipped + k) = .inr (rows.drop k) := by
  induction rows with
  | nil =>
    intro skipped k hk hle
    exact absurd hle (by simp; omega)
  | cons r rs ih =>
    intro skipped k hk hle
    obtain ⟨k', rfl⟩ : ∃ k', k = k' + 1 := ⟨k - 1, by omega⟩
    simp only [skipInStripe]
    by_cases h0 : k' = 0
    · subst h0
      rw [if_pos (by push_cast; ring)]
      simp
    · rw [if_neg (by push_cast; omega)]
      rw [show skipped + ((k' + 1 : Nat) : Int) = (skipped + 1) + (k' : Nat)
        from by push_cast; ring]
      rw [ih (skipped + 1) k' (by omega) (by simp at hle; omega)]
      simp

/-- If fewer than `k` records remain in the stripe, the skip inner loop
consumes them all and reports how many were discarded so far. -/
theorem skipInStripe_exhausts (rows : List RowData) :
    ∀ (skipped : Int) (k : Nat), 1 ≤ k → rows.length < k →
    skipInStripe rows skipped (skipped + k) = .inl (skipped + rows.length) := by
  induction rows with
  | nil => intro skipped k _ _; simp [skipInStripe]
  | cons r rs ih =>
    intro skipped k hk hgt
    obtain ⟨k', rfl⟩ : ∃ k', k = k' + 1 := ⟨k - 1, by omega⟩
    have hk' : 1 ≤ k' := by simp at hgt; omega
    simp only [skipInStripe]
    rw [if_neg (by push_cast; omega)]
    rw [show skipped + ((k' + 1 : Nat) : Int) = (skipped + 1) + (k' : Nat)
      from by push_cast; ring]
    rw [ih (skipped + 1) k' hk' (by simp at hgt ⊢; omega)]
    congr 1
    simp only [List.length_cons]
    push_cast
    ring

/-- When `k` (at least one) does not exceed the records in the remaining
stripes, the skip outer loop returns nil with the cursor positioned right
after the `k`-th record; the remaining iteration order is the drop of the
flattened stripes, and the untouched stripes all come from the input. -/
theorem skipStripes_reaches (S : List (List RowData)) :
    ∀ (skipped : Int) (k : Nat), 1 ≤ k → k ≤ S.flatten.length →
    ∃ leftover ss, skipStripes S skipped (skipped + k) = (none, ⟨leftover, ss⟩) ∧
      leftover ++ ss.flatten = S.flatten.drop k ∧ ∀ t ∈ ss, t ∈ S := by
  induction S with
  | nil =>
    intro skipped k hk hle
    exact absurd hle (by simp; omega)
  | cons s ss ih =>
    intro skipped k hk hle
    by_cases hc : k ≤ s.length
    · refine ⟨s.drop k, ss, ?_, ?_, fun t ht => by simp [ht]⟩
      · simp only [skipStripes]
        rw [skipInStripe_reaches s skipped k hk hc]
      · simp [List.flatten_cons, List.drop_append_of_le_length hc]
    · push_neg at hc
      obtain ⟨k₂, rfl⟩ : ∃ k₂, k = s.length + k₂ := ⟨k - s.length, by omega⟩
      have hk₂ : 1 ≤ k₂ := by omega
      have hle₂ : k₂ ≤ ss.flatten.length := by simp at hle ⊢; omega
      obtain ⟨leftover, ss', h1, h2, h3⟩ := ih (skipped + s.length) k₂ hk₂ hle₂
      refine ⟨leftover, ss', ?_, ?_, fun t ht => by simp [h3 t ht]⟩
      · simp only [skipStripes]
        rw [skipInStripe_exhausts s skipped (s.length + k₂) (by omega) (by omega)]
        show skipStripes ss (skipped + (s.length : Int))
            (skipped + ((s.length + k₂ : Nat) : Int)) = (none, ⟨leftover, ss'⟩)
        rw [show skipped + ((s.length + k₂ : Nat) : Int)
            = (skipped + (s.length : Int)) + (k₂ : Int) from by push_cast; ring]
        exact h1
      · rw [show (s :: ss).flatten = s ++ ss.flatten from by simp, List.drop_append]
        exact h2

/-- When `k` exceeds the records in the remaining stripes, the skip outer
loop runs dry and returns the skip-exhaustion error. -/
theorem skipStripes_exhausts (S : List (List RowData)) :
    ∀ (skipped : Int) (k : Nat), 1 ≤ k → S.flatten.length < k →
    (skipStripes S skipped (skipped + k)).1 = some "no more rows to skip" := by
  induction S with
  | nil => intro skipped k _ _; simp [skipStripes]
  | cons s ss ih =>
    intro skipped k hk hgt
    obtain ⟨k₂, rfl⟩ : ∃ k₂, k = s.length + k₂ := ⟨k - s.length, by simp at hgt; omega⟩
    have hk₂ : 1 ≤ k₂ := by simp at hgt; omega
    simp only [skipStripes]
    rw [skipInStripe_exhausts s skipped (s.length + k₂) (by omega) (by omega)]
    show (skipStripes ss (skipped + (s.length : Int))
        (skipped + ((s.length + k₂ : Nat) : Int))).1 = some "no more rows to skip"
    rw [show skipped + ((s.length + k₂ : Nat) : Int)
        = (skipped + (s.length : Int)) + (k₂ : Int) from by push_cast; ring]
    exact ih (skipped + s.length) k₂ hk₂ (by simp at hgt ⊢; omega)

/-- C5: on a fresh reader over a file with `R` records (in nonempty
stripes), `SkipRows n` with `n < R` succeeds and advances past exactly the
first `n` records: a following `Read` with a buffer of the remaining size
delivers the `R - n` remaining records in original order.  `SkipRows (R+1)`
on a fresh reader returns the skip-exhaustion error. -/
theorem skipRows_then_read (S : List (List RowData)) (R n : Nat)
    (dst : List InventoryObject)
    (hS : ∀ s ∈ S, s ≠ []) (hR : R = S.flatten.length) (hn : n < R)
    (hdst : dst.length = R - n) :
    (∃ c', OrcManifestFileReader.SkipRows ⟨[], S⟩ (n : Int) = (none, c') ∧
      (OrcManifestFileReader.ReadInto dst c').1
        = (S.flatten.drop n).map inventoryObjectFromOrc) ∧
    (OrcManifestFileReader.SkipRows ⟨[], S⟩ ((R : Int) + 1)).1
      = some "no more rows to skip" := by
  constructor
  · by_cases hn0 : n = 0
    · subst hn0
      refine ⟨⟨[], S⟩, by simp [OrcManifestFileReader.SkipRows], ?_⟩
      obtain ⟨c', hc'⟩ := readLoop_delivers S [] [] dst.length dst.length hS
        (by omega) (by simp) (by simp at hR ⊢; omega)
      simp only [OrcManifestFileReader.ReadInto]
      rw [hc']
      have hlen : dst.length = S.flatten.length := by omega
      simp only [List.nil_append]
      rw [hlen, List.take_length]
      simp
    · have hn1 : 1 ≤ n := by omega
      cases S with
      | nil => simp at hR; omega
      | cons s ss =>
        obtain ⟨leftover, ss', h1, h2, h3⟩ := skipStripes_reaches (s :: ss) 0 n hn1
          (by rw [← hR]; omega)
        have h1' : skipStripes (s :: ss) 0 (n : Int) = (none, ⟨leftover, ss'⟩) := by
          rw [show ((n : Nat) : Int) = 0 + (n : Int) from by ring]
          exact h1
        refine ⟨⟨leftover, ss'⟩, ?_, ?_⟩
        · simp only [OrcManifestFileReader.SkipRows]
          rw [if_neg (by simpa using hn0)]
          exact h1'
        · have hlen : (leftover ++ ss'.flatten).length = R - n := by
            rw [h2, List.length_drop, ← hR]
          obtain ⟨c', hc'⟩ := readLoop_delivers ss' leftover [] dst.length dst.length
            (fun t ht => hS t (h3 t ht)) (by omega) (by simp) (by rw [hlen]; omega)
          simp only [OrcManifestFileReader.ReadInto]
          rw [hc']
          have htk : dst.length = (leftover ++ ss'.flatten).length := by
            rw [hlen]; omega
          simp only [List.nil_append]
          rw [htk, List.take_length, h2]
  · simp only [OrcManifestFileReader.SkipRows]
    rw [if_neg (by omega)]
    cases S with
    | nil => rfl
    | cons s ss =>
      have hex := skipStripes_exhausts (s :: ss) 0 (R + 1) (by omega)
        (by rw [← hR]; omega)
      show (skipStripes (s :: ss) 0 ((R : Int) + 1)).1 = some "no more rows to skip"
      rw [show ((R : Nat) : Int) + 1 = 0 + ((R + 1 : Nat) : Int) from by push_cast; ring]
      exact hex

/-- Witness for C5 on the 5-record scenario file with n = 2: skipping 2 and
reading into a 3-slot buffer yields records 3, 4, 5; skipping 6 errors. -/
theorem skipRows_then_read_witness :
    (∃ c', OrcManifestFileReader.SkipRows ⟨[], scenarioStripes⟩ ((2 : Nat) : Int)
        = (none, c') ∧
      (OrcManifestFileReader.ReadInto (List.replicate 3 default) c').1
        = (scenarioStripes.flatten.drop 2).map inventoryObjectFromOrc) ∧
    (OrcManifestFileReader.SkipRows ⟨[], scenarioStripes⟩ (((5 : Nat) : Int) + 1)).1
      = some "no more rows to skip" :=
  skipRows_then_read scenarioStripes 5 2 (List.replicate 3 default)
    (by decide) (by decide) (by decide) (by decide)
